import Mathlib

/-!
Verification of the PiCAM capture core (`obsbot_capture.py`, `hat_ui.py`).

This file gives a shallow embedding of the parts of the program that the
spec's testable properties talk about:

* `CamState` — the `CameraState` record (configuration plus runtime flags);
* `startRecording` / `stopRecording` — the recording-lifecycle functions,
  with the behaviour of the external encoder subprocess (poll / stdin write /
  wait / kill outcomes) supplied explicitly through small environment
  records, and every externally visible side effect (directory creation,
  preview release/reopen, subprocess interactions) recorded in an ordered
  effect list;
* the format-preset table and the clamped `output_format` accessor;
* the `AudioMeter` per-block level/peak update;
* the `FrameGrabber` single-slot frame cache (`feed_frame` / `get`);
* the `HatInput` debounce / key-repeat event generator (`get_events`).

Machine floats are modelled as exact rationals; Python `time.time()` values
are rationals measured in seconds, exactly as the source compares them.
-/

namespace PiCAM

/-- Constants from `obsbot_capture.py`. -/
def DEFAULT_DEVICE : String := "/dev/video0"

def DEFAULT_RES : String := "3840x2160"

def DEFAULT_FPS : Nat := 30

def DEFAULT_FORMAT_IDX : Int := 0

def AUDIO_METER_DECAY : ℚ := 85 / 100

/--
`CameraState.__init__` (src/obsbot_capture.py).  Fields that the
recording lifecycle, the format accessors and the audio meter read or
write.  `ffmpeg_proc` holds an abstract process identifier instead of a
`subprocess.Popen` handle; `rec_start` is the `time.time()` stamp.
`load_config` (excluded persistence layer) may overwrite numeric fields,
which is why `output_format_idx` ranges over all integers.
-/
structure CamState where
  device : String := DEFAULT_DEVICE
  resolution : String := DEFAULT_RES
  fps : Nat := DEFAULT_FPS
  exposure : Int := 500
  gain : Int := 100
  wb_temp : Int := 5600
  auto_wb : Bool := false
  auto_exp : Bool := false
  auto_focus : Bool := true
  focus : Int := 128
  output_format_idx : Int := DEFAULT_FORMAT_IDX
  recording : Bool := false
  rec_start : Option ℚ := none
  clip_number : Nat := 1
  ffmpeg_proc : Option Nat := none
  record_trigger : Bool := false
  audio_enabled : Bool := true
  audio_muted : Bool := false
  mic_gain_db : Int := 0
  audio_levels : List ℚ := [0, 0]
  audio_peaks : List ℚ := [0, 0]
  deriving Repr, DecidableEq

/-- The initial `CameraState()` (before any config-file overrides). -/
def initState : CamState := {}

/--
Externally visible side effects of `start_recording` / `stop_recording`,
in program order: output-directory creation, release / reopen of the
OpenCV preview capture, and every interaction with the encoder
subprocess.
-/
inductive Effect where
  | mkdirOutput
  | releasePreview
  | spawnEncoder
  | pollEncoder
  | writeQuitByte
  | flushStdin
  | waitBounded
  | killEncoder
  | waitUnbounded
  | reopenPreview
  deriving Repr, DecidableEq

/--
Outcome of `subprocess.Popen` plus the post-spawn liveness check in
`start_recording`: `ffmpeg` binary missing (`FileNotFoundError` raised by
`Popen` before any handle is stored), some other exception raised by
`Popen` itself, a spawned process that has already exited when polled
after the 0.8 s grace sleep, or a process still running.
-/
inductive SpawnOutcome where
  | fileNotFound
  | spawnRaise
  | exitsImmediately (code : Int)
  | running (pid : Nat)
  deriving Repr, DecidableEq

/--
`start_recording(state, cap)` (src/obsbot_capture.py lines 596–639).
Returns the new state, the ordered effect list, and the boolean result.
`hasCap` models whether a preview capture object was passed; `now` is
`time.time()` at the moment recording starts.
-/
def startRecording (s : CamState) (env : SpawnOutcome) (now : ℚ) (hasCap : Bool) :
    CamState × List Effect × Bool :=
  if s.recording then (s, [], false)
  else
    let pre := Effect.mkdirOutput :: (if hasCap then [Effect.releasePreview] else [])
    match env with
    | .fileNotFound => (s, pre ++ [Effect.spawnEncoder], false)
    | .spawnRaise => (s, pre ++ [Effect.spawnEncoder], false)
    | .exitsImmediately _ =>
        ({ s with ffmpeg_proc := none }, pre ++ [Effect.spawnEncoder, Effect.pollEncoder], false)
    | .running pid =>
        ({ s with ffmpeg_proc := some pid, recording := true, rec_start := some now },
         pre ++ [Effect.spawnEncoder, Effect.pollEncoder], true)

/--
Joint outcome of the graceful-termination attempt in `stop_recording`:
`stdin.write(b"q")`, `stdin.flush()`, `wait(timeout=10)`.  A
`BrokenPipeError` can come from the write or the flush; a
`TimeoutExpired` only from the wait; any of the three calls can raise
some other exception.
-/
inductive GraceOutcome where
  | ok
  | brokenPipeWrite
  | brokenPipeFlush
  | timeout
  | excWrite
  | excFlush
  | excWait
  deriving Repr, DecidableEq

/--
Environment for one `stop_recording` call.  `pollResult` is
`ffmpeg_proc.poll()` (`none` = still running, `some code` = already
exited).  `killAfterTimeoutRaises` / `waitAfterKillRaises` model the
unprotected `kill()` and `wait()` calls in the `TimeoutExpired` handler;
`killAfterExcRaises` models the `kill()` inside the catch-all handler,
which the source wraps in its own `try/except` so it never escapes.
-/
structure StopEnv where
  pollResult : Option Int
  grace : GraceOutcome
  killAfterTimeoutRaises : Bool
  waitAfterKillRaises : Bool
  killAfterExcRaises : Bool
  deriving Repr, DecidableEq

/--
The unconditional state cleanup at the end of `stop_recording`
(lines 668–683): clear `recording` and `rec_start`, bump `clip_number`,
drop the process handle, then reopen the preview capture if one was
passed.
-/
def stopCleanup (s : CamState) (hasCap : Bool) : CamState × List Effect :=
  ({ s with recording := false, rec_start := none,
            clip_number := s.clip_number + 1, ffmpeg_proc := none },
   if hasCap then [Effect.reopenPreview] else [])

/--
`stop_recording(state, cap, ...)` (src/obsbot_capture.py lines 642–683).
Returns the state after the call, the ordered effect list, and a flag
that is `true` when the call terminates by an uncaught exception
(in the source this happens exactly when the `kill()` or the `wait()`
inside the `TimeoutExpired` handler raises; exceptions raised inside an
`except` handler propagate out of the function, skipping the cleanup).
-/
def stopRecording (s : CamState) (env : StopEnv) (hasCap : Bool) :
    CamState × List Effect × Bool :=
  if ¬ s.recording ∨ s.ffmpeg_proc = none then (s, [], false)
  else
    let attempt : List Effect × Bool :=
      match env.pollResult with
      | some _ => ([Effect.pollEncoder], false)
      | none =>
        match env.grace with
        | .ok =>
            ([Effect.pollEncoder, Effect.writeQuitByte, Effect.flushStdin,
              Effect.waitBounded], false)
        | .brokenPipeWrite =>
            ([Effect.pollEncoder, Effect.writeQuitByte], false)
        | .brokenPipeFlush =>
            ([Effect.pollEncoder, Effect.writeQuitByte, Effect.flushStdin], false)
        | .timeout =>
            if env.killAfterTimeoutRaises then
              ([Effect.pollEncoder, Effect.writeQuitByte, Effect.flushStdin,
                Effect.waitBounded, Effect.killEncoder], true)
            else if env.waitAfterKillRaises then
              ([Effect.pollEncoder, Effect.writeQuitByte, Effect.flushStdin,
                Effect.waitBounded, Effect.killEncoder, Effect.waitUnbounded], true)
            else
              ([Effect.pollEncoder, Effect.writeQuitByte, Effect.flushStdin,
                Effect.waitBounded, Effect.killEncoder, Effect.waitUnbounded], false)
        | .excWrite =>
            ([Effect.pollEncoder, Effect.writeQuitByte, Effect.killEncoder], false)
        | .excFlush =>
            ([Effect.pollEncoder, Effect.writeQuitByte, Effect.flushStdin,
              Effect.killEncoder], false)
        | .excWait =>
            ([Effect.pollEncoder, Effect.writeQuitByte, Effect.flushStdin,
              Effect.waitBounded, Effect.killEncoder], false)
    if attempt.2 then (s, attempt.1, true)
    else
      let cleaned := stopCleanup s hasCap
      (cleaned.1, attempt.1 ++ cleaned.2, false)

/--
One GUI-loop operation on the recording lifecycle: a `start_recording`
call or a `stop_recording` call.  The `run_gui` reactions — the HAT
record trigger, the `R` key, and the ffmpeg-died poll at lines 781–784
(a `stop_recording` call whose environment has `pollResult = some code`)
— are all instances of these two operations.
-/
inductive Op where
  | start (env : SpawnOutcome) (now : ℚ) (hasCap : Bool)
  | stop (env : StopEnv) (hasCap : Bool)
  deriving Repr

/-- Apply one operation, returning the new state and its effect list. -/
def stepOp (s : CamState) : Op → CamState × List Effect
  | .start env now hc => ((startRecording s env now hc).1, (startRecording s env now hc).2.1)
  | .stop env hc => ((stopRecording s env hc).1, (stopRecording s env hc).2.1)

/-- Run a sequence of start/stop operations. -/
def runOps : CamState → List Op → CamState
  | s, [] => s
  | s, op :: ops => runOps (stepOp s op).1 ops

/--
A *successful stop transition*: a `stop_recording` call made while
`recording` is set and a process handle exists, that runs to completion
(returns instead of propagating an exception).
-/
def isSuccessfulStop (s : CamState) : Op → Bool
  | .start _ _ _ => false
  | .stop env hc => s.recording && s.ffmpeg_proc.isSome && !(stopRecording s env hc).2.2

/-- Number of successful stop transitions along a run. -/
def countSuccessfulStops : CamState → List Op → Nat
  | _, [] => 0
  | s, op :: ops =>
      (if isSuccessfulStop s op then 1 else 0) + countSuccessfulStops (stepOp s op).1 ops

/-- Spec §3 invariant: `encoderHandle` is non-null iff `recording`. -/
def StateInv (s : CamState) : Prop := s.recording = s.ffmpeg_proc.isSome

/-! ## Output-format presets (`OUTPUT_FORMATS`, `CameraState.output_format`) -/

/-- One entry of the `OUTPUT_FORMATS` table. -/
structure FormatPreset where
  key : String
  label : String
  ext : String
  note : String
  est_mbps : Nat
  cpu_warn : Bool
  vcodec : String
  vparams : List String
  acodec : String
  abitrate : Option String
  mflags : List String
  deriving Repr, DecidableEq

/-- `OUTPUT_FORMATS` (src/obsbot_capture.py lines 103–195). -/
def OUTPUT_FORMATS : List FormatPreset :=
  [ { key := "h264_high", label := "H.264 High", ext := "mp4",
      note := "~50Mbps · Filmora ★", est_mbps := 50, cpu_warn := true,
      vcodec := "libx264",
      vparams := ["-crf", "18", "-preset", "faster", "-pix_fmt", "yuv420p"],
      acodec := "aac", abitrate := some "256k",
      mflags := ["-movflags", "+faststart"] },
    { key := "h264_std", label := "H.264 Std", ext := "mp4",
      note := "~20Mbps · smaller files", est_mbps := 20, cpu_warn := true,
      vcodec := "libx264",
      vparams := ["-crf", "23", "-preset", "faster", "-pix_fmt", "yuv420p"],
      acodec := "aac", abitrate := some "192k",
      mflags := ["-movflags", "+faststart"] },
    { key := "h265", label := "H.265 / HEVC", ext := "mp4",
      note := "~25Mbps · efficient 4K", est_mbps := 25, cpu_warn := true,
      vcodec := "libx265",
      vparams := ["-crf", "20", "-preset", "faster", "-pix_fmt", "yuv420p"],
      acodec := "aac", abitrate := some "256k",
      mflags := ["-movflags", "+faststart"] },
    { key := "mkv_h264", label := "MKV H.264", ext := "mkv",
      note := "~50Mbps · flexible container", est_mbps := 50, cpu_warn := true,
      vcodec := "libx264",
      vparams := ["-crf", "18", "-preset", "faster", "-pix_fmt", "yuv420p"],
      acodec := "aac", abitrate := some "256k",
      mflags := [] },
    { key := "prores_hq", label := "ProRes HQ", ext := "mov",
      note := "~220Mbps · max quality", est_mbps := 220, cpu_warn := false,
      vcodec := "prores_ks",
      vparams := ["-profile:v", "3", "-vendor", "ap10", "-pix_fmt", "yuv422p10le"],
      acodec := "pcm_s24le", abitrate := none,
      mflags := ["-movflags", "+faststart"] },
    { key := "prores_lt", label := "ProRes LT", ext := "mov",
      note := "~100Mbps · edit-ready", est_mbps := 100, cpu_warn := false,
      vcodec := "prores_ks",
      vparams := ["-profile:v", "1", "-vendor", "ap10", "-pix_fmt", "yuv422p10le"],
      acodec := "pcm_s24le", abitrate := none,
      mflags := ["-movflags", "+faststart"] },
    { key := "prores_proxy", label := "ProRes Proxy", ext := "mov",
      note := "~40Mbps · offline / rough cut", est_mbps := 40, cpu_warn := false,
      vcodec := "prores_ks",
      vparams := ["-profile:v", "0", "-vendor", "ap10", "-pix_fmt", "yuv422p10le"],
      acodec := "pcm_s24le", abitrate := none,
      mflags := ["-movflags", "+faststart"] } ]

def N_FORMATS : Nat := OUTPUT_FORMATS.length

theorem n_formats_eq : N_FORMATS = 7 := rfl

/-- The index clamp in `CameraState.output_format`:
`idx = max(0, min(self.output_format_idx, N_FORMATS - 1))`. -/
def clampIdx (idx : Int) : Int := max 0 (min idx ((N_FORMATS : Int) - 1))

theorem clampIdx_nonneg (idx : Int) : 0 ≤ clampIdx idx := le_max_left 0 _

theorem clampIdx_lt (idx : Int) : clampIdx idx < (N_FORMATS : Int) := by
  have h7 : (N_FORMATS : Int) = 7 := by
    rw [n_formats_eq]; rfl
  rw [clampIdx, h7]
  omega

theorem clampIdx_toNat_lt (idx : Int) : (clampIdx idx).toNat < N_FORMATS := by
  have h1 := clampIdx_lt idx
  rw [n_formats_eq] at h1 ⊢
  omega

/-- `CameraState.output_format` (lines 296–300). -/
def outputFormat (idx : Int) : FormatPreset :=
  OUTPUT_FORMATS.get ⟨(clampIdx idx).toNat, clampIdx_toNat_lt idx⟩

/-- `CameraState.format_label` (lines 302–304). -/
def formatLabel (s : CamState) : String := (outputFormat s.output_format_idx).label

/-- Python `{:04d}` zero-padding used in `clip_name`. -/
def pad4 (n : Nat) : String :=
  String.mk (List.replicate (4 - (toString n).length) '0') ++ toString n

/-- `CameraState.clip_name` (lines 306–310); `ts` is the
`datetime.now().strftime` stamp supplied by the excluded clock. -/
def clipName (ts : String) (s : CamState) : String :=
  "CLIP_" ++ ts ++ "_" ++ pad4 s.clip_number ++ "." ++ (outputFormat s.output_format_idx).ext

/-! ## AudioMeter per-block update (`AudioMeter._run`) -/

/--
`state.audio_levels[ch] = rms` for each channel of the block, in channel
order; channels beyond the block's channel count keep their value.
-/
def setLevels : List ℚ → List ℚ → List ℚ
  | _ :: lv, r :: rs => r :: setLevels lv rs
  | lv, [] => lv
  | [], _ :: _ => []

/--
The peak-hold branch of `AudioMeter._run` (lines 517–520): raise the
peak to the new RMS if it is louder, otherwise decay the stored peak by
`AUDIO_METER_DECAY`.
-/
def updPeaks : List ℚ → List ℚ → List ℚ
  | p :: pk, r :: rs => (if r > p then r else p * AUDIO_METER_DECAY) :: updPeaks pk rs
  | pk, [] => pk
  | [], _ :: _ => []

/--
One fixed-size sample block of `AudioMeter._run` (lines 511–520), given
the per-channel RMS values already computed from the block (the
`np.sqrt(np.mean(...))` floating-point computation itself is the
excluded numerics layer; the claims are about where the value is written
and how the peak is held).
-/
def audioMeterBlock (rms : List ℚ) (s : CamState) : CamState :=
  { s with audio_levels := setLevels s.audio_levels rms,
           audio_peaks := updPeaks s.audio_peaks rms }

/-! ## FrameGrabber (`hat_ui.py` lines 235–341) -/

def LCD_W : Nat := 128

def LCD_H : Nat := 128

/-- An OpenCV BGR frame: row-count, column-count, and a pixel map
(row, column) ↦ (B, G, R). -/
structure RawFrame where
  h : Nat
  w : Nat
  pix : Nat → Nat → Nat × Nat × Nat

/-- A PIL RGB image: width, height and a pixel map (row, column) ↦ (R, G, B). -/
structure PILImg where
  w : Nat
  h : Nat
  pix : Nat → Nat → Nat × Nat × Nat

def C_BG : Nat × Nat × Nat := (8, 8, 16)

/--
`FrameGrabber._make_placeholder`: a 128×128 image with the STARTING...
graphics.  The drawing calls only set pixel values; the claims depend on
its fixed size, so the pixel content is represented by the background
fill. -/
def placeholderImg : PILImg := ⟨LCD_W, LCD_H, fun _ _ => C_BG⟩

/--
The conversion inside `feed_frame`: `cv2.cvtColor(..., COLOR_BGR2RGB)`,
centre square crop of side `min(h, w)`, then
`.resize((LCD_W, LCD_H), Image.BILINEAR)`.  The resize always produces a
128×128 image; its interpolation arithmetic is represented by
coordinate scaling into the cropped square (the claims depend on the
output size, not the filter weights). -/
def convertFrame (f : RawFrame) : PILImg :=
  let sq := min f.h f.w
  let y0 := (f.h - sq) / 2
  let x0 := (f.w - sq) / 2
  ⟨LCD_W, LCD_H, fun i j =>
    let p := f.pix (y0 + i * sq / LCD_H) (x0 + j * sq / LCD_W)
    (p.2.2, p.2.1, p.1)⟩

/-- The mutable slot of a `FrameGrabber`: `_frame`, `_ok`, `_fed`. -/
structure GrabberState where
  frame : Option PILImg := none
  ok : Bool := false
  fed : Bool := false

def initGrabber : GrabberState := {}

/--
`FrameGrabber.feed_frame` (lines 265–283).  `none` models a `None`
argument (returned on immediately); a degenerate frame (zero rows or
columns) makes `cv2.cvtColor` raise, which the `try/except` swallows —
the slot is left untouched.  Any successful conversion overwrites the
single slot under the lock. -/
def feedFrame (inp : Option RawFrame) (g : GrabberState) : GrabberState :=
  match inp with
  | none => g
  | some f =>
      if f.h = 0 ∨ f.w = 0 then g
      else { frame := some (convertFrame f), ok := true, fed := true }

/-- `FrameGrabber.get` (lines 330–332): a copy of the stored frame, or a
copy of the placeholder if nothing was ever stored (`.copy()` is the
identity on these immutable values — the copy is what makes the returned
image independent of the slot). -/
def getFrame (g : GrabberState) : PILImg :=
  match g.frame with
  | some f => f
  | none => placeholderImg

/-- A sequence of `feed_frame` calls. -/
def feedMany (fs : List (Option RawFrame)) (g : GrabberState) : GrabberState :=
  fs.foldl (fun g f => feedFrame f g) g

/-- The last input in the sequence whose conversion succeeds, converted. -/
def lastGood (fs : List (Option RawFrame)) (acc : Option PILImg) : Option PILImg :=
  fs.foldl
    (fun acc f =>
      match f with
      | none => acc
      | some raw => if raw.h = 0 ∨ raw.w = 0 then acc else some (convertFrame raw))
    acc

/-! ## HatInput debounce / key-repeat (`hat_ui.py` lines 347–382) -/

def PIN_KEY1 : Nat := 21
def PIN_KEY2 : Nat := 20
def PIN_KEY3 : Nat := 16
def PIN_JOY_UP : Nat := 6
def PIN_JOY_DOWN : Nat := 19
def PIN_JOY_LEFT : Nat := 5
def PIN_JOY_RIGHT : Nat := 26
def PIN_JOY_PRESS : Nat := 13

def ALL_INPUT_PINS : List Nat :=
  [PIN_KEY1, PIN_KEY2, PIN_KEY3,
   PIN_JOY_UP, PIN_JOY_DOWN, PIN_JOY_LEFT, PIN_JOY_RIGHT, PIN_JOY_PRESS]

def DEBOUNCE_MS : ℚ := 70
def HOLD_DELAY_MS : ℚ := 400
def HOLD_REPEAT_MS : ℚ := 110

/-- `repeat_pins = {PIN_JOY_UP, PIN_JOY_DOWN}` in `get_events`. -/
def isRepeatPin (p : Nat) : Bool := p == PIN_JOY_UP || p == PIN_JOY_DOWN

/-- Event kinds emitted by `get_events`: `press` and `repeat`. -/
inductive EventKind where
  | press
  | rep
  deriving Repr, DecidableEq, BEq

/--
Per-pin bookkeeping of `HatInput`: `rel` is `self._last[pin]`
(`True` = released), and `ptime` / `rtime` / `etime` are the last
accepted press / repeat / event timestamps, initialised to `0.0`. -/
structure PinState where
  rel : Bool
  ptime : ℚ
  rtime : ℚ
  etime : ℚ
  deriving Repr, DecidableEq

def initPin : PinState := ⟨true, 0, 0, 0⟩

/--
The body of the per-pin loop in `HatInput.get_events` (lines 368–381):
debounced release→press detection, key-repeat for repeat-enabled pins,
and the `self._last[pin] = (not pressed)` update. -/
def stepPin (isRep : Bool) (now : ℚ) (pressed : Bool) (st : PinState) :
    PinState × Option EventKind :=
  let wasP := ¬ st.rel = true
  if pressed = true ∧ ¬ wasP then
    if (now - st.etime) * 1000 > DEBOUNCE_MS then
      (⟨false, now, now, now⟩, some .press)
    else
      (⟨false, st.ptime, st.rtime, st.etime⟩, none)
  else if pressed = true ∧ wasP ∧ isRep = true then
    if (now - st.ptime) * 1000 > HOLD_DELAY_MS ∧ (now - st.rtime) * 1000 > HOLD_REPEAT_MS then
      (⟨false, st.ptime, now, st.etime⟩, some .rep)
    else
      (⟨false, st.ptime, st.rtime, st.etime⟩, none)
  else
    (⟨!pressed, st.ptime, st.rtime, st.etime⟩, none)

/-- The full per-pin state of a `HatInput`. -/
def InState : Type := Nat → PinState

def initInState : InState := fun _ => initPin

/-- The pin loop of `get_events`, over an explicit pin list. -/
def getEventsAux (now : ℚ) (inp : Nat → Bool) :
    List Nat → InState → InState × List (Nat × EventKind)
  | [], s => (s, [])
  | p :: ps, s =>
      let r := stepPin (isRepeatPin p) now (inp p) (s p)
      let s' : InState := fun q => if q = p then r.1 else s q
      let rest := getEventsAux now inp ps s'
      (rest.1, (match r.2 with | some k => [(p, k)] | none => []) ++ rest.2)

/--
`HatInput.get_events` (lines 363–382): one synchronous poll at time
`now` with sampled line levels `inp` (`true` = pressed, i.e.
`GPIO.input(pin) == GPIO.LOW`); returns the updated per-pin state and
the ordered `(line, kind)` list in fixed declaration order. -/
def getEvents (now : ℚ) (inp : Nat → Bool) (s : InState) :
    InState × List (Nat × EventKind) :=
  getEventsAux now inp ALL_INPUT_PINS s

/-- A sequence of polls; each event is tagged with its poll time. -/
def runEvents : List (ℚ × (Nat → Bool)) → InState → InState × List (ℚ × Nat × EventKind)
  | [], s => (s, [])
  | (t, f) :: rest, s =>
      let r := getEvents t f s
      let rr := runEvents rest r.1
      (rr.1, r.2.map (fun e => (t, e.1, e.2)) ++ rr.2)

/-- Single-pin run of the per-pin step over a poll schedule. -/
def runPin (isRep : Bool) : List (ℚ × Bool) → PinState → PinState × List (ℚ × EventKind)
  | [], st => (st, [])
  | (t, p) :: rest, st =>
      let r := stepPin isRep t p st
      let rr := runPin isRep rest r.1
      (rr.1, (match r.2 with | some k => [(t, k)] | none => []) ++ rr.2)

/-- The (time, kind) events of one pin in a multi-poll run. -/
def pinEvents (evs : List (ℚ × Nat × EventKind)) (p : Nat) : List (ℚ × EventKind) :=
  (evs.filter (fun e => e.2.1 == p)).map (fun e => (e.1, e.2.2))

/-- The times of the events of a given kind. -/
def kindTimes (evs : List (ℚ × EventKind)) (k : EventKind) : List ℚ :=
  (evs.filter (fun e => e.2 == k)).map Prod.fst

/-- A line level function with only one pin pressed. -/
def onlyPin (p : Nat) : Nat → Bool := fun q => q == p

/-- All lines released. -/
def noPin : Nat → Bool := fun _ => false

/--
Poll schedule for the repeat-count counterexample, slow variant: the
joystick-up line goes down at t = 1000 s and stays held; `get_events` is
polled every 100 ms (faster than the 110 ms repeat interval) until
t = 1001 s, i.e. for a held duration of 1000 ms past the press.
-/
def schedSlowPoll : List (ℚ × (Nat → Bool)) :=
  (List.range 11).map (fun k => (1000 + (k : ℚ) / 10, onlyPin PIN_JOY_UP))

/--
Poll schedule for the repeat-count counterexample, fast variant: same
press time and held duration (1000 ms), polled every 20 ms.
-/
def schedFastPoll : List (ℚ × (Nat → Bool)) :=
  (List.range 51).map (fun k => (1000 + (k : ℚ) / 50, onlyPin PIN_JOY_UP))

/--
Poll schedule of spec Scenario E: the KEY1 line is pressed at t = 0,
t = 0.03 s and t = 0.08 s (relative to a base time of 100 s — the source
compares `time.time()` values against timestamps initialised to `0.0`,
so the scenario's relative times sit on an arbitrary absolute base),
released in between, with `get_events` polled at each transition.
-/
def schedScenarioE : List (ℚ × (Nat → Bool)) :=
  [(100, onlyPin PIN_KEY1), (100 + 15/1000, noPin),
   (100 + 3/100, onlyPin PIN_KEY1), (100 + 5/100, noPin),
   (100 + 8/100, onlyPin PIN_KEY1)]

/-! ## Helper lemmas about `stopRecording` -/

theorem stopRecording_guard_false (s : CamState) (env : StopEnv) (hc : Bool)
    (h : s.recording = false ∨ s.ffmpeg_proc = none) :
    stopRecording s env hc = (s, [], false) := by
  rw [stopRecording, if_pos]
  rcases h with h | h
  · exact Or.inl (by simp [h])
  · exact Or.inr h

theorem stopRecording_raised_iff (s : CamState) (env : StopEnv) (hc : Bool)
    (h1 : s.recording = true) (h2 : s.ffmpeg_proc ≠ none) :
    (stopRecording s env hc).2.2 = true ↔
      env.pollResult = none ∧ env.grace = .timeout ∧
        (env.killAfterTimeoutRaises = true ∨ env.waitAfterKillRaises = true) := by
  obtain ⟨pr, gr, k1, k2, k3⟩ := env
  cases pr <;> cases gr <;> cases k1 <;> cases k2 <;>
    simp [stopRecording, stopCleanup, h1, h2]

theorem stopRecording_raised_state (s : CamState) (env : StopEnv) (hc : Bool)
    (h : (stopRecording s env hc).2.2 = true) :
    (stopRecording s env hc).1 = s := by
  obtain ⟨pr, gr, k1, k2, k3⟩ := env
  by_cases h1 : s.recording = true
  · by_cases h2 : s.ffmpeg_proc = none
    · rw [stopRecording_guard_false s _ hc (Or.inr h2)]
    · cases pr <;> cases gr <;> cases k1 <;> cases k2 <;>
        simp_all [stopRecording, stopCleanup]
  · rw [stopRecording_guard_false s _ hc
      (Or.inl (by revert h1; cases s.recording <;> simp))]

theorem stopRecording_returned_state (s : CamState) (env : StopEnv) (hc : Bool)
    (h1 : s.recording = true) (h2 : s.ffmpeg_proc ≠ none)
    (h3 : (stopRecording s env hc).2.2 = false) :
    (stopRecording s env hc).1 =
      { s with recording := false, rec_start := none,
               clip_number := s.clip_number + 1, ffmpeg_proc := none } := by
  obtain ⟨pr, gr, k1, k2, k3⟩ := env
  cases pr <;> cases gr <;> cases k1 <;> cases k2 <;>
    simp_all [stopRecording, stopCleanup]

theorem stopRecording_no_spawn (s : CamState) (env : StopEnv) (hc : Bool) :
    Effect.spawnEncoder ∉ (stopRecording s env hc).2.1 := by
  obtain ⟨pr, gr, k1, k2, k3⟩ := env
  by_cases h1 : s.recording = true
  · by_cases h2 : s.ffmpeg_proc = none
    · rw [stopRecording_guard_false s _ hc (Or.inr h2)]; simp
    · cases pr <;> cases gr <;> cases k1 <;> cases k2 <;> cases hc <;>
        simp_all [stopRecording, stopCleanup]
  · rw [stopRecording_guard_false s _ hc
      (Or.inl (by revert h1; cases s.recording <;> simp))]
    simp

/-! ## Claim C1 — stop_recording always clears `recording` / `ffmpeg_proc` -/

/--
C1 (counterexample): the claim is false as stated.  Starting from
`recording = true` with a live process handle, if the bounded wait times
out and the forceful `kill()` in the `TimeoutExpired` handler itself
raises (that call, unlike the kill in the catch-all handler, is not
wrapped in its own `try/except`), the exception propagates out of
`stop_recording` before the cleanup block runs: `recording` is still
`true` and `ffmpeg_proc` is still set after the call.
-/
theorem stop_cleanup_counterexample :
    (stopRecording { initState with recording := true, ffmpeg_proc := some 1 }
        ⟨none, .timeout, true, false, false⟩ true).1.recording = true ∧
    (stopRecording { initState with recording := true, ffmpeg_proc := some 1 }
        ⟨none, .timeout, true, false, false⟩ true).1.ffmpeg_proc = some 1 ∧
    (stopRecording { initState with recording := true, ffmpeg_proc := some 1 }
        ⟨none, .timeout, true, false, false⟩ true).2.2 = true := by
  refine ⟨rfl, rfl, rfl⟩

/--
C1 (amended): from `recording = true` with a non-null handle, on every
path on which `stop_recording` returns normally — graceful exit, broken
pipe, process already exited, timeout followed by a successful kill and
wait, or any other exception (whether or not the escalation `kill()` in
the catch-all handler raises) — the resulting state has
`recording = false` and `ffmpeg_proc = None`; the call instead
propagates an exception, leaving the state untouched, exactly when the
bounded wait timed out and the unprotected `kill()` (or the unconditional
`wait()` after it) raised.
-/
theorem stop_cleanup_spec (s : CamState) (env : StopEnv) (hc : Bool)
    (h1 : s.recording = true) (h2 : s.ffmpeg_proc ≠ none) :
    ((stopRecording s env hc).2.2 = false →
        (stopRecording s env hc).1.recording = false ∧
        (stopRecording s env hc).1.ffmpeg_proc = none) ∧
    ((stopRecording s env hc).2.2 = true ↔
        env.pollResult = none ∧ env.grace = .timeout ∧
          (env.killAfterTimeoutRaises = true ∨ env.waitAfterKillRaises = true)) ∧
    ((stopRecording s env hc).2.2 = true → (stopRecording s env hc).1 = s) := by
  refine ⟨fun h3 => ?_, stopRecording_raised_iff s env hc h1 h2,
    fun h => stopRecording_raised_state s env hc h⟩
  rw [stopRecording_returned_state s env hc h1 h2 h3]
  exact ⟨rfl, rfl⟩

/-- C1 (witness for the amended theorem), at a concrete recording state
and a graceful-exit environment. -/
theorem stop_cleanup_spec_witness :
    (stopRecording { initState with recording := true, ffmpeg_proc := some 4 }
        ⟨none, .ok, false, false, false⟩ true).1.recording = false ∧
    (stopRecording { initState with recording := true, ffmpeg_proc := some 4 }
        ⟨none, .ok, false, false, false⟩ true).1.ffmpeg_proc = none :=
  (stop_cleanup_spec { initState with recording := true, ffmpeg_proc := some 4 }
      ⟨none, .ok, false, false, false⟩ true rfl (by simp)).1 rfl

/-! ## Claim C2 — broken pipe on the quit byte -/

/--
C2: the repo's own test (`test_stop_recording_broken_pipe`) and the spec
say a broken pipe while writing the quit byte is *logged* and execution
still proceeds to the bounded `wait(timeout=10)`.  The code's handler is
`except BrokenPipeError: pass`, which logs nothing and — because the
`wait` sits inside the same `try` block after the failing `write` —
skips the wait entirely, jumping straight to the state cleanup.  This
theorem evaluates the embedded `stop_recording` at that failing input:
the effect trace stops at the write, contains no bounded wait, and the
cleanup still runs.
-/
theorem broken_pipe_skips_wait :
    (stopRecording { initState with recording := true, ffmpeg_proc := some 1 }
        ⟨none, .brokenPipeWrite, false, false, false⟩ false).2.1 =
      [Effect.pollEncoder, Effect.writeQuitByte] ∧
    Effect.waitBounded ∉
      (stopRecording { initState with recording := true, ffmpeg_proc := some 1 }
        ⟨none, .brokenPipeWrite, false, false, false⟩ false).2.1 ∧
    (stopRecording { initState with recording := true, ffmpeg_proc := some 1 }
        ⟨none, .brokenPipeWrite, false, false, false⟩ false).1.recording = false := by
  refine ⟨rfl, by decide, rfl⟩

/-! ## Claim C9 — stop_recording is a silent no-op whenever the handle is null -/

/--
C9: the guard `if not state.recording or state.ffmpeg_proc is None:
return` makes `stop_recording` return immediately, with no state change
and no subprocess or preview interaction, not only when `recording` is
false but also whenever `ffmpeg_proc` is `None` — in particular from the
(out-of-invariant) state `recording = true ∧ ffmpeg_proc = None`, where
`recording` stays `true` after the call.
-/
theorem stop_noop_when_no_proc :
    (∀ (s : CamState) (env : StopEnv) (hc : Bool),
        s.ffmpeg_proc = none → stopRecording s env hc = (s, [], false)) ∧
    (∀ (s : CamState) (env : StopEnv) (hc : Bool),
        s.recording = false → stopRecording s env hc = (s, [], false)) :=
  ⟨fun s env hc h => stopRecording_guard_false s env hc (Or.inr h),
   fun s env hc h => stopRecording_guard_false s env hc (Or.inl h)⟩

/-- C9 (witness): from `recording = true` with a null handle, the call
returns the state unchanged — `recording` is still `true` — with an
empty effect trace. -/
theorem stop_noop_when_no_proc_witness :
    stopRecording { initState with recording := true } ⟨none, .ok, false, false, false⟩ true =
      ({ initState with recording := true }, [], false) ∧
    ({ initState with recording := true } : CamState).recording = true :=
  ⟨stop_noop_when_no_proc.1 { initState with recording := true }
      ⟨none, .ok, false, false, false⟩ true rfl, rfl⟩

/-! ## Helper lemmas for operation traces -/

theorem bool_false_of_not_true {b : Bool} (h : ¬ b = true) : b = false := by
  revert h; cases b <;> simp

theorem startRecording_clip (s : CamState) (env : SpawnOutcome) (now : ℚ) (hc : Bool) :
    (startRecording s env now hc).1.clip_number = s.clip_number := by
  by_cases hr : s.recording = true
  · simp [startRecording, hr]
  · cases env <;> simp [startRecording, bool_false_of_not_true hr]

theorem stepOp_clip (s : CamState) (op : Op) :
    (stepOp s op).1.clip_number =
      s.clip_number + (if isSuccessfulStop s op then 1 else 0) := by
  cases op with
  | start env now hc =>
      simp only [stepOp, isSuccessfulStop]
      simp [startRecording_clip s env now hc]
  | stop env hc =>
      simp only [stepOp, isSuccessfulStop]
      by_cases hr : s.recording = true
      · by_cases hp : s.ffmpeg_proc = none
        · simp only [stopRecording_guard_false s env hc (Or.inr hp), hp]
          simp
        · rcases Bool.eq_false_or_eq_true ((stopRecording s env hc).2.2) with hrai | hrai
          · simp only [stopRecording_raised_state s env hc hrai, hrai]
            simp
          · simp only [stopRecording_returned_state s env hc hr hp hrai, hrai, hr]
            simp [Option.isSome_iff_ne_none.mpr hp]
      · have hr' := bool_false_of_not_true hr
        simp only [stopRecording_guard_false s env hc (Or.inl hr'), hr']
        simp

theorem stepOp_inv (s : CamState) (op : Op) (h : StateInv s) : StateInv (stepOp s op).1 := by
  cases op with
  | start env now hc =>
      by_cases hr : s.recording = true
      · simpa [stepOp, startRecording, hr] using h
      · have hr' := bool_false_of_not_true hr
        cases env with
        | fileNotFound => simpa [stepOp, startRecording, hr'] using h
        | spawnRaise => simpa [stepOp, startRecording, hr'] using h
        | exitsImmediately c => simp [stepOp, startRecording, hr', StateInv]
        | running pid => simp [stepOp, startRecording, hr', StateInv]
  | stop env hc =>
      simp only [stepOp]
      by_cases hr : s.recording = true
      · by_cases hp : s.ffmpeg_proc = none
        · rw [stopRecording_guard_false s env hc (Or.inr hp)]; exact h
        · cases hrai : (stopRecording s env hc).2.2 with
          | true => rw [stopRecording_raised_state s env hc hrai]; exact h
          | false =>
              rw [stopRecording_returned_state s env hc hr hp hrai]
              simp [StateInv]
      · rw [stopRecording_guard_false s env hc (Or.inl (bool_false_of_not_true hr))]
        exact h

/-! ## Claim C3 — start while recording is rejected; single encoder handle -/

/--
C3: `start_recording` called while `recording` is already set returns
`False` with the state untouched and an empty effect trace (no
output-directory creation, no preview release, no spawn); the iff
invariant `recording ↔ ffmpeg_proc ≠ None` is preserved by every
start/stop sequence; and any operation that spawns an encoder starts
from a state with no handle — so at most one encoder handle exists at
any time.
-/
theorem start_reject_single_handle :
    (∀ (s : CamState) (env : SpawnOutcome) (now : ℚ) (hc : Bool),
        s.recording = true → startRecording s env now hc = (s, [], false)) ∧
    (∀ (s : CamState) (ops : List Op), StateInv s → StateInv (runOps s ops)) ∧
    (∀ (s : CamState) (op : Op), StateInv s →
        Effect.spawnEncoder ∈ (stepOp s op).2 → s.ffmpeg_proc = none) := by
  refine ⟨fun s env now hc h => by simp [startRecording, h], ?_, ?_⟩
  · intro s ops
    induction ops generalizing s with
    | nil => exact fun h => h
    | cons op ops ih => exact fun h => ih _ (stepOp_inv s op h)
  · intro s op hinv hmem
    cases op with
    | stop env hc => exact absurd hmem (stopRecording_no_spawn s env hc)
    | start env now hc =>
        by_cases hr : s.recording = true
        · simp [stepOp, startRecording, hr] at hmem
        · have hr' := bool_false_of_not_true hr
          cases hpc : s.ffmpeg_proc with
          | none => rfl
          | some v => rw [StateInv, hr', hpc] at hinv; simp at hinv

/-- C3 (witness): the rejection at a concrete recording state, and the
invariant after a concrete start-then-stop run. -/
theorem start_reject_single_handle_witness :
    startRecording { initState with recording := true, ffmpeg_proc := some 2 }
        (.running 9) 5 true =
      ({ initState with recording := true, ffmpeg_proc := some 2 }, [], false) ∧
    StateInv (runOps initState
      [Op.start (.running 3) 1 true, Op.stop ⟨none, .ok, false, false, false⟩ true]) :=
  ⟨start_reject_single_handle.1 _ (.running 9) 5 true rfl,
   start_reject_single_handle.2.1 initState
     [Op.start (.running 3) 1 true, Op.stop ⟨none, .ok, false, false, false⟩ true] rfl⟩

/-! ## Claim C4 — `clip_number` counts successful stops -/

/--
C4: along every start/stop operation sequence, `clip_number` grows by
exactly the number of successful stop transitions; a start (successful,
rejected, or failed) never changes it, a stop whose guard fails (not
recording, or no handle) never changes it, and a guarded stop that runs
to completion adds exactly 1.
-/
theorem clip_number_spec :
    (∀ (s : CamState) (ops : List Op),
        (runOps s ops).clip_number = s.clip_number + countSuccessfulStops s ops) ∧
    (∀ (s : CamState) (env : SpawnOutcome) (now : ℚ) (hc : Bool),
        (startRecording s env now hc).1.clip_number = s.clip_number) ∧
    (∀ (s : CamState) (env : StopEnv) (hc : Bool),
        s.recording = false ∨ s.ffmpeg_proc = none →
          (stopRecording s env hc).1.clip_number = s.clip_number) ∧
    (∀ (s : CamState) (env : StopEnv) (hc : Bool),
        s.recording = true → s.ffmpeg_proc ≠ none →
          (stopRecording s env hc).2.2 = false →
          (stopRecording s env hc).1.clip_number = s.clip_number + 1) := by
  refine ⟨?_, startRecording_clip, ?_, ?_⟩
  · intro s ops
    induction ops generalizing s with
    | nil => simp [runOps, countSuccessfulStops]
    | cons op ops ih =>
        show (runOps (stepOp s op).1 ops).clip_number = _
        rw [ih, stepOp_clip, countSuccessfulStops]
        omega
  · intro s env hc h
    rw [stopRecording_guard_false s env hc h]
  · intro s env hc h1 h2 h3
    rw [stopRecording_returned_state s env hc h1 h2 h3]

/-- C4 (witness): a concrete guarded stop that completes bumps
`clip_number` by exactly 1. -/
theorem clip_number_spec_witness :
    (stopRecording { initState with recording := true, ffmpeg_proc := some 1 }
        ⟨none, .ok, false, false, false⟩ true).1.clip_number =
      ({ initState with recording := true, ffmpeg_proc := some 1 } : CamState).clip_number + 1 :=
  clip_number_spec.2.2.2 { initState with recording := true, ffmpeg_proc := some 1 }
    ⟨none, .ok, false, false, false⟩ true rfl (by simp) rfl

/-! ## Helper lemmas for the frame grabber -/

theorem getFrame_eq (g : GrabberState) : getFrame g = g.frame.getD placeholderImg := by
  rcases g with ⟨f, ok, fed⟩
  cases f <;> rfl

theorem feedFrame_frame (f : Option RawFrame) (g : GrabberState) :
    (feedFrame f g).frame =
      match f with
      | none => g.frame
      | some raw => if raw.h = 0 ∨ raw.w = 0 then g.frame else some (convertFrame raw) := by
  cases f with
  | none => rfl
  | some raw =>
      by_cases hd : raw.h = 0 ∨ raw.w = 0 <;> simp [feedFrame, hd]

theorem feedMany_frame (fs : List (Option RawFrame)) :
    ∀ g : GrabberState, (feedMany fs g).frame = lastGood fs g.frame := by
  induction fs with
  | nil => intro g; rfl
  | cons f fs ih =>
      intro g
      have h1 : feedMany (f :: fs) g = feedMany fs (feedFrame f g) := rfl
      rw [h1, ih]
      have h2 : lastGood (f :: fs) g.frame = lastGood fs (feedFrame f g).frame := by
        rw [feedFrame_frame]
        cases f <;> rfl
      rw [h2]

theorem lastGood_size (fs : List (Option RawFrame)) :
    ∀ acc : Option PILImg, (∀ i, acc = some i → i.w = LCD_W ∧ i.h = LCD_H) →
      ∀ i, lastGood fs acc = some i → i.w = LCD_W ∧ i.h = LCD_H := by
  induction fs with
  | nil => intro acc hacc i hi; exact hacc i hi
  | cons f fs ih =>
      intro acc hacc i hi
      cases f with
      | none => exact ih acc hacc i hi
      | some raw =>
          by_cases hd : raw.h = 0 ∨ raw.w = 0
          · refine ih acc hacc i ?_
            simpa [lastGood, hd] using hi
          · refine ih (some (convertFrame raw)) (fun j hj => ?_) i
              (by simpa [lastGood, hd] using hi)
            cases hj
            exact ⟨rfl, rfl⟩

/-! ## Claim C7 — FrameGrabber feed/get are total and fixed-size -/

/--
C7: for every sequence of `feed_frame` inputs — `None`, frames of any
size (including 100×100), degenerate frames whose conversion fails —
`feed_frame` is total (failed conversions are silently dropped by the
`try/except`, modelled by leaving the slot untouched) and `get` is total
and always returns a 128×128 image: the conversion of the most recent
successfully fed frame if any feed succeeded, and the placeholder
otherwise.  The returned image is an independent copy (`.copy()`), which
for these immutable values is the value itself.
-/
theorem frame_grabber_total_spec (fs : List (Option RawFrame)) :
    (getFrame (feedMany fs initGrabber)).w = 128 ∧
    (getFrame (feedMany fs initGrabber)).h = 128 ∧
    getFrame (feedMany fs initGrabber) = (lastGood fs none).getD placeholderImg := by
  have hmain : getFrame (feedMany fs initGrabber) = (lastGood fs none).getD placeholderImg := by
    rw [getFrame_eq, feedMany_frame]
    rfl
  refine ⟨?_, ?_, hmain⟩ <;> rw [hmain] <;>
    rcases hlg : lastGood fs none with _ | i
  · rfl
  · exact (lastGood_size fs none (by intro i h; cases h) i hlg).1
  · rfl
  · exact (lastGood_size fs none (by intro i h; cases h) i hlg).2

/-! ## Helper lemmas for the audio meter -/

theorem setLevels_getD : ∀ (lv rs : List ℚ) (ch : Nat), ch < rs.length → ch < lv.length →
    (setLevels lv rs).getD ch 0 = rs.getD ch 0
  | _ :: _, _ :: _, 0, _, _ => rfl
  | _ :: lv, _ :: rs, ch + 1, h1, h2 => by
      simp only [setLevels, List.getD_cons_succ]
      exact setLevels_getD lv rs ch (by simpa using h1) (by simpa using h2)
  | _, [], ch, h1, _ => absurd h1 (by simp)
  | [], _ :: _, ch, _, h2 => absurd h2 (by simp)

theorem updPeaks_getD : ∀ (pk rs : List ℚ) (ch : Nat), ch < rs.length → ch < pk.length →
    (updPeaks pk rs).getD ch 0 =
      (if rs.getD ch 0 > pk.getD ch 0 then rs.getD ch 0
       else pk.getD ch 0 * AUDIO_METER_DECAY)
  | _ :: _, _ :: _, 0, _, _ => rfl
  | _ :: pk, _ :: rs, ch + 1, h1, h2 => by
      simp only [updPeaks, List.getD_cons_succ]
      exact updPeaks_getD pk rs ch (by simpa using h1) (by simpa using h2)
  | _, [], ch, h1, _ => absurd h1 (by simp)
  | [], _ :: _, ch, _, h2 => absurd h2 (by simp)

/-! ## Claim C8 — audio meter peak-hold formula -/

/--
C8 (counterexample): the claim says the peak is updated to
`max(RMS, previous_peak × 0.85)`.  The code's update
(`if rms > peak: peak = rms; else: peak *= 0.85`) differs when
`0.85 × peak < rms ≤ peak`: with a stored peak of `1.0` and an RMS of
`0.9`, the code decays the peak to `0.85` while the claimed formula
gives `max(0.9, 0.85) = 0.9`.
-/
theorem audio_peak_counterexample :
    (audioMeterBlock [9/10, 0] { initState with audio_peaks := [1, 0] }).audio_peaks =
      [85/100, 0] ∧
    max (9/10 : ℚ) (1 * AUDIO_METER_DECAY) = 9/10 ∧
    (85/100 : ℚ) ≠ 9/10 := by
  refine ⟨?_, by norm_num [AUDIO_METER_DECAY], by norm_num⟩
  show updPeaks [1, 0] [9/10, 0] = [85/100, 0]
  norm_num [updPeaks, AUDIO_METER_DECAY]

/--
C8 (amended): on each sample block, the per-channel RMS is written
directly into `audio_levels`, and the peak is updated to the RMS when
the RMS exceeds the stored peak and to `previous_peak × 0.85` otherwise.
This is a one-sided version of the claimed `max(RMS, peak × 0.85)`:
never larger than it (for non-negative peaks), and strictly smaller
exactly when `peak × 0.85 < RMS ≤ peak`.
-/
theorem audio_meter_block_spec (s : CamState) (rms : List ℚ) (ch : Nat)
    (h1 : ch < rms.length) (h2 : ch < s.audio_levels.length)
    (h3 : ch < s.audio_peaks.length) :
    (audioMeterBlock rms s).audio_levels.getD ch 0 = rms.getD ch 0 ∧
    (audioMeterBlock rms s).audio_peaks.getD ch 0 =
      (if rms.getD ch 0 > s.audio_peaks.getD ch 0 then rms.getD ch 0
       else s.audio_peaks.getD ch 0 * AUDIO_METER_DECAY) ∧
    (0 ≤ s.audio_peaks.getD ch 0 →
      (audioMeterBlock rms s).audio_peaks.getD ch 0 ≤
        max (rms.getD ch 0) (s.audio_peaks.getD ch 0 * AUDIO_METER_DECAY)) ∧
    (s.audio_peaks.getD ch 0 * AUDIO_METER_DECAY < rms.getD ch 0 →
      rms.getD ch 0 ≤ s.audio_peaks.getD ch 0 →
      (audioMeterBlock rms s).audio_peaks.getD ch 0 <
        max (rms.getD ch 0) (s.audio_peaks.getD ch 0 * AUDIO_METER_DECAY)) := by
  have hlv : (audioMeterBlock rms s).audio_levels = setLevels s.audio_levels rms := rfl
  have hpk : (audioMeterBlock rms s).audio_peaks = updPeaks s.audio_peaks rms := rfl
  rw [hlv, hpk, setLevels_getD s.audio_levels rms ch h1 h2,
    updPeaks_getD s.audio_peaks rms ch h1 h3]
  refine ⟨rfl, rfl, fun hpos => ?_, fun hlo hhi => ?_⟩
  · by_cases hcmp : rms.getD ch 0 > s.audio_peaks.getD ch 0
    · rw [if_pos hcmp]; exact le_max_left _ _
    · rw [if_neg hcmp]; exact le_max_right _ _
  · have hcmp : ¬ rms.getD ch 0 > s.audio_peaks.getD ch 0 := not_lt.mpr hhi
    rw [if_neg hcmp, max_eq_left (le_of_lt hlo)]
    exact hlo

/-- C8 (witness for the amended theorem), at channel 0 with RMS `9/10`
and stored peak `1`. -/
theorem audio_meter_block_spec_witness :
    (audioMeterBlock [9/10] { initState with audio_peaks := [1, 0] }).audio_levels.getD 0 0 =
      ([9/10] : List ℚ).getD 0 0 ∧
    (audioMeterBlock [9/10] { initState with audio_peaks := [1, 0] }).audio_peaks.getD 0 0 =
      (if ([9/10] : List ℚ).getD 0 0 >
          ({ initState with audio_peaks := [1, 0] } : CamState).audio_peaks.getD 0 0 then
        ([9/10] : List ℚ).getD 0 0
       else ({ initState with audio_peaks := [1, 0] } : CamState).audio_peaks.getD 0 0 *
         AUDIO_METER_DECAY) :=
  ⟨(audio_meter_block_spec { initState with audio_peaks := [1, 0] } [9/10] 0
      (by decide) (by decide) (by decide)).1,
   (audio_meter_block_spec { initState with audio_peaks := [1, 0] } [9/10] 0
      (by decide) (by decide) (by decide)).2.1⟩

/-! ## Claim C10 — `output_format` clamps out-of-range indices -/

/--
C10: for every integer `output_format_idx` — negative, or at least
`N_FORMATS` (e.g. loaded from a stale config file) — the clamp
`max(0, min(idx, N_FORMATS − 1))` lands in `[0, N_FORMATS − 1]`, so
`output_format` always returns an entry of `OUTPUT_FORMATS`, in-range
indices are returned unchanged, and the derived `format_label` and
`clip_name` are computed from that entry's `label` / `ext` without any
out-of-range access.
-/
theorem output_format_clamped :
    (∀ idx : Int, 0 ≤ clampIdx idx ∧ clampIdx idx < (N_FORMATS : Int) ∧
        outputFormat idx ∈ OUTPUT_FORMATS) ∧
    (∀ idx : Int, 0 ≤ idx → idx < (N_FORMATS : Int) → clampIdx idx = idx) ∧
    (∀ s : CamState, ∃ f ∈ OUTPUT_FORMATS,
        formatLabel s = f.label ∧ ∀ ts, clipName ts s =
          "CLIP_" ++ ts ++ "_" ++ pad4 s.clip_number ++ "." ++ f.ext) := by
  refine ⟨fun idx => ⟨clampIdx_nonneg idx, clampIdx_lt idx, List.get_mem _ _ _⟩, ?_, ?_⟩
  · intro idx hlo hhi
    have h7 : (N_FORMATS : Int) = 7 := by rw [n_formats_eq]; rfl
    rw [h7] at hhi
    rw [clampIdx, h7]
    omega
  · intro s
    exact ⟨outputFormat s.output_format_idx, List.get_mem _ _ _, rfl, fun ts => rfl⟩

/-- C10 (witness): an in-range index is returned unchanged, and an
out-of-range index still selects a table entry. -/
theorem output_format_clamped_witness :
    clampIdx 3 = 3 ∧ outputFormat (-5) ∈ OUTPUT_FORMATS :=
  ⟨output_format_clamped.2.1 3 (by norm_num)
      (by rw [show ((N_FORMATS : Int)) = 7 from by rw [n_formats_eq]; rfl]; norm_num),
   (output_format_clamped.1 (-5)).2.2⟩

/-! ## Helper lemmas for the input event generator -/

theorem all_input_pins_nodup : ALL_INPUT_PINS.Nodup := by decide

theorem beq_press_press : (EventKind.press == EventKind.press) = true := rfl

theorem beq_rep_press : (EventKind.rep == EventKind.press) = false := rfl

/--
Exhaustive description of one `stepPin` call: either no event (all
timestamps kept), a `press` (all three timestamps set to `now`, emitted
only past the debounce window), or a `repeat` (only the repeat timestamp
set to `now`, emitted only past the hold delay and the repeat interval).
-/
theorem stepPin_cases (isRep : Bool) (now : ℚ) (pressed : Bool) (st : PinState) :
    ((stepPin isRep now pressed st).2 = none ∧
      (stepPin isRep now pressed st).1.etime = st.etime ∧
      (stepPin isRep now pressed st).1.ptime = st.ptime ∧
      (stepPin isRep now pressed st).1.rtime = st.rtime) ∨
    (stepPin isRep now pressed st = (⟨false, now, now, now⟩, some .press) ∧
      (now - st.etime) * 1000 > DEBOUNCE_MS) ∨
    (stepPin isRep now pressed st = (⟨false, st.ptime, now, st.etime⟩, some .rep) ∧
      (now - st.ptime) * 1000 > HOLD_DELAY_MS ∧
      (now - st.rtime) * 1000 > HOLD_REPEAT_MS) := by
  simp only [stepPin]
  split_ifs with h1 h2 h3 h4
  · exact Or.inr (Or.inl ⟨rfl, h2⟩)
  · exact Or.inl ⟨rfl, rfl, rfl, rfl⟩
  · exact Or.inr (Or.inr ⟨rfl, h4⟩)
  · exact Or.inl ⟨rfl, rfl, rfl, rfl⟩
  · exact Or.inl ⟨rfl, rfl, rfl, rfl⟩

/-- `stepPin` on a repeat-enabled pin that is held (was already pressed). -/
theorem stepPin_held (t : ℚ) (st : PinState) (hrel : st.rel = false) :
    stepPin true t true st =
      (if (t - st.ptime) * 1000 > HOLD_DELAY_MS ∧ (t - st.rtime) * 1000 > HOLD_REPEAT_MS
       then (⟨false, st.ptime, t, st.etime⟩, some .rep)
       else (⟨false, st.ptime, st.rtime, st.etime⟩, none)) := by
  simp [stepPin, hrel]

/--
A continuously held repeat-enabled pin: starting right after an accepted
press at `ptime = t0` with current repeat stamp `r0`, every emitted event
is a `repeat`, every repeat lies strictly beyond the hold delay after
`t0`, and the repeat times form a chain in which each is strictly more
than the repeat interval after the previous one (the first after `r0`).
-/
theorem runPin_rep_spec :
    ∀ (polls : List (ℚ × Bool)), (∀ e ∈ polls, e.2 = true) →
    ∀ (t0 r0 e0 : ℚ),
      (∀ ev ∈ (runPin true polls ⟨false, t0, r0, e0⟩).2,
          ev.2 = EventKind.rep ∧ (ev.1 - t0) * 1000 > HOLD_DELAY_MS) ∧
      List.Chain (fun a b => (b - a) * 1000 > HOLD_REPEAT_MS) r0
        ((runPin true polls ⟨false, t0, r0, e0⟩).2.map Prod.fst)
  | [], _, t0, r0, e0 => by simp [runPin]
  | (t, p) :: polls, hall, t0, r0, e0 => by
      have hp : p = true := hall (t, p) (List.mem_cons_self _ _)
      subst hp
      have hall2 : ∀ e ∈ polls, e.2 = true := fun e he => hall e (List.mem_cons_of_mem _ he)
      by_cases hc : (t - t0) * 1000 > HOLD_DELAY_MS ∧ (t - r0) * 1000 > HOLD_REPEAT_MS
      · have ih := runPin_rep_spec polls hall2 t0 t e0
        simp only [runPin, stepPin_held t ⟨false, t0, r0, e0⟩ rfl, if_pos hc]
        constructor
        · intro ev hev
          rcases List.mem_cons.mp hev with hev | hev
          · subst hev; exact ⟨rfl, hc.1⟩
          · exact ih.1 ev hev
        · exact List.chain_cons.mpr ⟨hc.2, ih.2⟩
      · have ih := runPin_rep_spec polls hall2 t0 r0 e0
        simp only [runPin, stepPin_held t ⟨false, t0, r0, e0⟩ rfl, if_neg hc]
        simpa using ih

/--
Debounce chain: in any single-pin run, the accepted press times form a
chain in which consecutive presses are separated by strictly more than
the debounce window, anchored at the stored last-event time, which
tracks the last accepted press.
-/
theorem runPin_press_chain (isRep : Bool) :
    ∀ (polls : List (ℚ × Bool)) (st : PinState),
      List.Chain (fun a b => (b - a) * 1000 > DEBOUNCE_MS) st.etime
        (kindTimes (runPin isRep polls st).2 .press) ∧
      (runPin isRep polls st).1.etime =
        (kindTimes (runPin isRep polls st).2 .press).getLastD st.etime
  | [], st => by simp [runPin, kindTimes]
  | (t, p) :: polls, st => by
      rcases stepPin_cases isRep t p st with ⟨hnone, het, _, _⟩ | ⟨heq, hdeb⟩ | ⟨heq, _⟩
      · have ih := runPin_press_chain isRep polls (stepPin isRep t p st).1
        rw [het] at ih
        simp only [runPin, hnone, List.nil_append]
        exact ih
      · have ih := runPin_press_chain isRep polls ⟨false, t, t, t⟩
        simp only [runPin, heq]
        have hkt : kindTimes ((t, EventKind.press) ::
            (runPin isRep polls ⟨false, t, t, t⟩).2) .press =
            t :: kindTimes (runPin isRep polls ⟨false, t, t, t⟩).2 .press := by
          simp [kindTimes, List.filter_cons, beq_press_press]
        rw [List.singleton_append, hkt]
        refine ⟨List.chain_cons.mpr ⟨hdeb, ?_⟩, ?_⟩
        · simpa using ih.1
        · rw [List.getLastD_cons]
          simpa using ih.2
      · have ih := runPin_press_chain isRep polls ⟨false, st.ptime, t, st.etime⟩
        simp only [runPin, heq]
        have hkt : kindTimes ((t, EventKind.rep) ::
            (runPin isRep polls ⟨false, st.ptime, t, st.etime⟩).2) .press =
            kindTimes (runPin isRep polls ⟨false, st.ptime, t, st.etime⟩).2 .press := by
          simp [kindTimes, List.filter_cons, beq_rep_press]
        rw [List.singleton_append, hkt]
        exact ⟨by simpa using ih.1, by simpa using ih.2⟩

/-- Per-pin state after the pin loop of one `get_events` call. -/
theorem getEventsAux_state (now : ℚ) (inp : Nat → Bool) :
    ∀ (pins : List Nat), pins.Nodup → ∀ (s : InState) (q : Nat),
      (getEventsAux now inp pins s).1 q =
        if q ∈ pins then (stepPin (isRepeatPin q) now (inp q) (s q)).1 else s q
  | [], _, s, q => by simp [getEventsAux]
  | p :: pins, hnd, s, q => by
      have hnd2 := List.nodup_cons.mp hnd
      simp only [getEventsAux]
      rw [getEventsAux_state now inp pins hnd2.2 _ q]
      by_cases hqp : q = p
      · subst hqp
        have hqnot : q ∉ pins := hnd2.1
        simp [hqnot]
      · simp [List.mem_cons, hqp]

/-- Per-pin events of the pin loop of one `get_events` call. -/
theorem getEventsAux_events (now : ℚ) (inp : Nat → Bool) :
    ∀ (pins : List Nat), pins.Nodup → ∀ (s : InState) (q : Nat),
      ((getEventsAux now inp pins s).2.filter (fun e => e.1 == q)) =
        (if q ∈ pins then
          (match (stepPin (isRepeatPin q) now (inp q) (s q)).2 with
           | some k => [(q, k)] | none => [])
         else [])
  | [], _, s, q => by simp [getEventsAux]
  | p :: pins, hnd, s, q => by
      have hnd2 := List.nodup_cons.mp hnd
      simp only [getEventsAux, List.filter_append]
      rw [getEventsAux_events now inp pins hnd2.2 _ q]
      by_cases hqp : q = p
      · subst hqp
        have hqnot : q ∉ pins := hnd2.1
        rcases h2 : (stepPin (isRepeatPin q) now (inp q) (s q)).2 with _ | k
        · simp [hqnot, h2, List.mem_cons]
        · simp [hqnot, h2, List.mem_cons]
      · have hbeq : (p == q) = false := beq_eq_false_iff_ne.mpr (Ne.symm hqp)
        rcases h2 : (stepPin (isRepeatPin p) now (inp p) (s p)).2 with _ | k
        · simp [h2, List.mem_cons, hqp]
        · simp [h2, hbeq, List.mem_cons, hqp]

/--
Projection of a multi-pin `get_events` run onto one monitored pin: the
pin's state and its event stream are exactly those of the single-pin run
over the same poll times with that pin's sampled levels.
-/
theorem runEvents_pin :
    ∀ (polls : List (ℚ × (Nat → Bool))) (s : InState) (q : Nat), q ∈ ALL_INPUT_PINS →
      (runEvents polls s).1 q =
        (runPin (isRepeatPin q) (polls.map (fun pr => (pr.1, pr.2 q))) (s q)).1 ∧
      pinEvents (runEvents polls s).2 q =
        (runPin (isRepeatPin q) (polls.map (fun pr => (pr.1, pr.2 q))) (s q)).2
  | [], s, q, _ => ⟨rfl, rfl⟩
  | (t, f) :: polls, s, q, hq => by
      have hst : (getEvents t f s).1 q = (stepPin (isRepeatPin q) t (f q) (s q)).1 := by
        have h := getEventsAux_state t f ALL_INPUT_PINS all_input_pins_nodup s q
        rw [if_pos hq] at h
        exact h
      have hev : (getEvents t f s).2.filter (fun e => e.1 == q) =
          (match (stepPin (isRepeatPin q) t (f q) (s q)).2 with
           | some k => [(q, k)] | none => []) := by
        have h := getEventsAux_events t f ALL_INPUT_PINS all_input_pins_nodup s q
        rw [if_pos hq] at h
        exact h
      have ih := runEvents_pin polls (getEvents t f s).1 q hq
      constructor
      · show (runEvents polls (getEvents t f s).1).1 q = _
        rw [ih.1, hst]
        simp only [List.map_cons, runPin]
      · show pinEvents ((getEvents t f s).2.map (fun e => (t, e.1, e.2)) ++
            (runEvents polls (getEvents t f s).1).2) q = _
        have happ : pinEvents ((getEvents t f s).2.map (fun e => (t, e.1, e.2)) ++
            (runEvents polls (getEvents t f s).1).2) q =
            pinEvents ((getEvents t f s).2.map (fun e => (t, e.1, e.2))) q ++
            pinEvents (runEvents polls (getEvents t f s).1).2 q := by
          simp [pinEvents, List.filter_append]
        rw [happ, ih.2, hst]
        have hhead : pinEvents ((getEvents t f s).2.map (fun e => (t, e.1, e.2))) q =
            ((getEvents t f s).2.filter (fun e => e.1 == q)).map (fun e => (t, e.2)) := by
          simp only [pinEvents, List.filter_map, List.map_map]
          rfl
        rw [hhead, hev]
        rcases h2 : (stepPin (isRepeatPin q) t (f q) (s q)).2 with _ | k
        · simp [List.map_cons, runPin, h2]
        · simp [List.map_cons, runPin, h2]

/-- Length bound for additively separated chains. -/
theorem chain_mul_length_lt (δ : ℚ) (hδ : 0 < δ) :
    ∀ (ts : List ℚ) (c u : ℚ), List.Chain (fun a b => a + δ < b) c ts → ts ≠ [] →
      (∀ t ∈ ts, t ≤ u) → δ * ts.length < u - c
  | [], _, _, _, hne, _ => absurd rfl hne
  | t :: ts, c, u, hch, _, hub => by
      rw [List.chain_cons] at hch
      cases ts with
      | nil =>
          have ht := hub t (List.mem_cons_self _ _)
          simp only [List.length_singleton, Nat.cast_one, mul_one]
          linarith [hch.1]
      | cons t2 ts2 =>
          have h2 := chain_mul_length_lt δ hδ (t2 :: ts2) t u hch.2 (by simp)
            (fun x hx => hub x (List.mem_cons_of_mem _ hx))
          have hlen : ((t :: t2 :: ts2).length : ℚ) = ((t2 :: ts2).length : ℚ) + 1 := by
            push_cast [List.length_cons]
            ring
          rw [hlen, mul_add, mul_one]
          linarith [hch.1]

/-! ## Claim C5 — key-repeat count under a held line -/

/--
C5 (counterexample): the claim says a repeat-enabled line held for
D = 1000 ms past the press emits exactly
`floor((D − hold_delay) / repeat_interval) = floor(600/110) = 5` repeat
events for any polling faster than the repeat interval.  On the embedded
`get_events`: polling every 100 ms (faster than the 110 ms interval)
yields 3 repeats, polling every 20 ms yields 5 — the count depends on
the poll schedule, because each repeat fires at the first poll more than
the repeat interval after the previous repeat, so the effective period
is the poll-grid rounding of the interval, not the interval itself.
-/
theorem repeat_count_poll_dependent :
    (kindTimes (pinEvents (runEvents schedSlowPoll initInState).2 PIN_JOY_UP) .rep).length
      = 3 ∧
    (kindTimes (pinEvents (runEvents schedFastPoll initInState).2 PIN_JOY_UP) .rep).length
      = 5 ∧
    (5 : ℚ) ≤ ((1000 : ℚ) - HOLD_DELAY_MS) / HOLD_REPEAT_MS ∧
    ((1000 : ℚ) - HOLD_DELAY_MS) / HOLD_REPEAT_MS < 6 ∧
    (3 : Nat) ≠ 5 := by
  refine ⟨by with_unfolding_all rfl, by with_unfolding_all rfl, ?_, ?_, by decide⟩ <;>
    norm_num [HOLD_DELAY_MS, HOLD_REPEAT_MS]

/--
C5 (amended): for a repeat-enabled line held continuously after an
accepted press at `t0` (state `⟨false, t0, t0, t0⟩` is exactly the state
`stepPin` leaves after that press), every emitted event is a `repeat`,
each repeat fires strictly more than the hold delay after the press,
consecutive repeats (and the first repeat relative to the press) are
separated by strictly more than the repeat interval, and hence a held
duration of `Dms` milliseconds yields **at most**
`(Dms − hold_delay)/repeat_interval + 1` repeats; the exact count
depends on the poll schedule (each repeat fires at the *first poll*
satisfying the two threshold tests).  The final conjunct grounds the
single-pin run in the full `get_events` loop: the joystick-up events of
any multi-pin run are exactly those of the single-pin run.
-/
theorem key_repeat_schedule_spec (polls : List (ℚ × Bool)) (t0 Dms : ℚ)
    (hall : ∀ e ∈ polls, e.2 = true) (hD : HOLD_DELAY_MS < Dms)
    (hub : ∀ ev ∈ (runPin true polls ⟨false, t0, t0, t0⟩).2, ev.1 ≤ t0 + Dms / 1000) :
    (∀ ev ∈ (runPin true polls ⟨false, t0, t0, t0⟩).2,
        ev.2 = EventKind.rep ∧ (ev.1 - t0) * 1000 > HOLD_DELAY_MS) ∧
    List.Chain (fun a b => (b - a) * 1000 > HOLD_REPEAT_MS) t0
      ((runPin true polls ⟨false, t0, t0, t0⟩).2.map Prod.fst) ∧
    ((runPin true polls ⟨false, t0, t0, t0⟩).2.length : ℚ) ≤
      (Dms - HOLD_DELAY_MS) / HOLD_REPEAT_MS + 1 ∧
    (∀ polls2 : List (ℚ × (Nat → Bool)),
        pinEvents (runEvents polls2 initInState).2 PIN_JOY_UP =
          (runPin true (polls2.map (fun pr => (pr.1, pr.2 PIN_JOY_UP))) initPin).2) := by
  have hbase := runPin_rep_spec polls hall t0 t0 t0
  have hDdiv : (0 : ℚ) < (Dms - HOLD_DELAY_MS) / HOLD_REPEAT_MS := by
    apply div_pos (by linarith) (by norm_num [HOLD_REPEAT_MS])
  refine ⟨hbase.1, hbase.2, ?_,
    fun polls2 => (runEvents_pin polls2 initInState PIN_JOY_UP (by decide)).2⟩
  rcases hE : (runPin true polls ⟨false, t0, t0, t0⟩).2 with _ | ⟨ev1, evs⟩
  · simp
    linarith
  · have hb1 := hbase.1
    have hb2 := hbase.2
    rw [hE] at hb1 hb2 hub
    have ht1 : (ev1.1 - t0) * 1000 > HOLD_DELAY_MS :=
      (hb1 ev1 (List.mem_cons_self _ _)).2
    rw [List.map_cons, List.chain_cons] at hb2
    rcases hevs : evs.map Prod.fst with _ | ⟨t2, rest⟩
    · have : evs = [] := List.map_eq_nil_iff.mp hevs
      subst this
      simp only [List.length_singleton, Nat.cast_one]
      linarith
    · have hchain : List.Chain (fun a b => a + HOLD_REPEAT_MS / 1000 < b) ev1.1
          (evs.map Prod.fst) := by
        refine List.Chain.imp ?_ hb2.2
        intro a b h
        rw [HOLD_REPEAT_MS] at h ⊢
        linarith
      have hub2 : ∀ x ∈ evs.map Prod.fst, x ≤ t0 + Dms / 1000 := by
        intro x hx
        rcases List.mem_map.mp hx with ⟨ev, hev, hxe⟩
        rw [← hxe]
        exact hub ev (List.mem_cons_of_mem _ hev)
      have hlt := chain_mul_length_lt (HOLD_REPEAT_MS / 1000)
        (by norm_num [HOLD_REPEAT_MS]) (evs.map Prod.fst) ev1.1 (t0 + Dms / 1000)
        hchain (by rw [hevs]; simp) hub2
      rw [List.length_map] at hlt
      have hlen : ((ev1 :: evs).length : ℚ) = (evs.length : ℚ) + 1 := by
        push_cast [List.length_cons]
        ring
      rw [hlen]
      have hrest : (evs.length : ℚ) ≤ (Dms - HOLD_DELAY_MS) / HOLD_REPEAT_MS := by
        rw [HOLD_DELAY_MS, HOLD_REPEAT_MS]
        rw [le_div_iff₀ (by norm_num : (0:ℚ) < 110)]
        rw [HOLD_DELAY_MS] at ht1
        rw [HOLD_REPEAT_MS] at hlt
        nlinarith [hlt, ht1]
      linarith

/-- C5 (witness for the amended theorem): a single held poll at
t = 100.5 s after a press at t = 100 s, held duration 1000 ms. -/
theorem key_repeat_schedule_spec_witness :
    ((runPin true [((201 : ℚ)/2, true)]
        ⟨false, 100, 100, 100⟩).2.length : ℚ) ≤
      ((1000 : ℚ) - HOLD_DELAY_MS) / HOLD_REPEAT_MS + 1 :=
  (key_repeat_schedule_spec [((201 : ℚ)/2, true)] 100 1000
    (by decide) (by with_unfolding_all decide)
    (by
      intro ev hev
      have h : (runPin true [((201 : ℚ)/2, true)]
          (⟨false, 100, 100, 100⟩ : PinState)).2 = [((201 : ℚ)/2, EventKind.rep)] := by
        with_unfolding_all rfl
      rw [h] at hev
      rw [List.mem_singleton.mp hev]
      norm_num)).2.2.1

/-! ## Claim C6 — debounce window -/

/--
C6: in every multi-pin `get_events` run from the initial input state,
the accepted press times of any monitored line form a chain in which
consecutive presses are separated by strictly more than the 70 ms
debounce window (release→press edges inside the window are rejected and,
because a rejected edge does not touch the last-event stamp, the first
edge past the window is accepted) — and in spec Scenario E (presses at
t, t + 30 ms, t + 80 ms with releases in between, polled at each
transition) exactly 2 press events are emitted.
-/
theorem debounce_spec :
    (∀ (polls : List (ℚ × (Nat → Bool))) (q : Nat), q ∈ ALL_INPUT_PINS →
        List.Chain (fun a b => (b - a) * 1000 > DEBOUNCE_MS) 0
          (kindTimes (pinEvents (runEvents polls initInState).2 q) .press)) ∧
    (kindTimes (pinEvents (runEvents schedScenarioE initInState).2 PIN_KEY1) .press).length
      = 2 := by
  refine ⟨?_, by with_unfolding_all rfl⟩
  · intro polls q hq
    have hb := (runEvents_pin polls initInState q hq).2
    rw [hb]
    exact (runPin_press_chain (isRepeatPin q)
      (polls.map (fun pr => (pr.1, pr.2 q))) initPin).1

/-- C6 (witness): the debounce chain instantiated on the Scenario E
schedule for the KEY1 line. -/
theorem debounce_spec_witness :
    List.Chain (fun a b => (b - a) * 1000 > DEBOUNCE_MS) 0
      (kindTimes (pinEvents (runEvents schedScenarioE initInState).2 PIN_KEY1) .press) :=
  debounce_spec.1 schedScenarioE PIN_KEY1 (by decide)

end PiCAM
